import Mathlib

/-!
Verification development for the CodePilot streaming chat client
(`src/components/chat/ChatView.tsx`).

The development shallowly embeds the streaming Session Controller of the
chat view: the line framer (`buffer.split('\n')` with the held-back last
line), the per-frame JSON event decoder (`JSON.parse` with try/catch),
the turn accumulator (the `switch (event.type)` body of `sendMessage`),
the permission gate (`handlePermissionResponse`), and the commit/cleanup
structure of `sendMessage` (normal completion, abort, error, `finally`).

JavaScript runtime values produced by `JSON.parse` are modelled by the
inductive type `Json` below, together with executable models of
`JSON.parse`, `JSON.stringify`, string coercion (template literals and
`+`), truthiness, and `===` on parsed values.  Modelling simplifications,
each noted at its definition site: JSON numbers are modelled as integers
(no fractional/exponent syntax), and string lengths count characters
(code points) rather than UTF-16 units.
-/

set_option maxRecDepth 1024

namespace CodePilot

/-- JavaScript values that can result from `JSON.parse`. -/
inductive Json where
  | null : Json
  | bool (b : Bool) : Json
  | num (n : Int) : Json
  | str (s : String) : Json
  | arr (elems : List Json) : Json
  | obj (fields : List (String × Json)) : Json
deriving Repr

/-- The `{` character, written via its code point. -/
def lbrace : Char := Char.ofNat 123

/-- The `}` character, written via its code point. -/
def rbrace : Char := Char.ofNat 125

/-- JSON whitespace characters accepted by `JSON.parse`. -/
def isWsChar (c : Char) : Bool := c = ' ' || c = '\n' || c = '\t' || c = '\r'

/-- Drop leading JSON whitespace. -/
def skipWs : List Char → List Char
  | [] => []
  | c :: cs => if isWsChar c then skipWs cs else c :: cs

/-- Value of a hexadecimal digit. -/
def hexVal (c : Char) : Option Nat :=
  if '0' ≤ c ∧ c ≤ '9' then some (c.toNat - 48)
  else if 'a' ≤ c ∧ c ≤ 'f' then some (c.toNat - 87)
  else if 'A' ≤ c ∧ c ≤ 'F' then some (c.toNat - 55)
  else none

/-- Parse the body of a JSON string literal (after the opening quote),
accumulating decoded characters; returns the string and the input after
the closing quote.  Handles the escape sequences of JSON; rejects raw
control characters, as `JSON.parse` does. -/
def parseStrAux : Nat → List Char → List Char → Option (String × List Char)
  | 0, _, _ => none
  | fuel + 1, acc, input =>
    match input with
    | [] => none
    | '"' :: rest => some (String.mk acc.reverse, rest)
    | '\\' :: 'u' :: h1 :: h2 :: h3 :: h4 :: rest =>
      match hexVal h1, hexVal h2, hexVal h3, hexVal h4 with
      | some a, some b, some c, some d =>
        parseStrAux fuel (Char.ofNat (a * 4096 + b * 256 + c * 16 + d) :: acc) rest
      | _, _, _, _ => none
    | '\\' :: e :: rest =>
      if e = '"' then parseStrAux fuel ('"' :: acc) rest
      else if e = '\\' then parseStrAux fuel ('\\' :: acc) rest
      else if e = '/' then parseStrAux fuel ('/' :: acc) rest
      else if e = 'n' then parseStrAux fuel ('\n' :: acc) rest
      else if e = 't' then parseStrAux fuel ('\t' :: acc) rest
      else if e = 'r' then parseStrAux fuel ('\r' :: acc) rest
      else if e = 'b' then parseStrAux fuel (Char.ofNat 8 :: acc) rest
      else if e = 'f' then parseStrAux fuel (Char.ofNat 12 :: acc) rest
      else none
    | c :: rest =>
      if c.toNat < 32 then none else parseStrAux fuel (c :: acc) rest

/-- Parse a JSON string literal body with enough fuel for its length. -/
def parseStrLit (cs : List Char) : Option (String × List Char) :=
  parseStrAux (cs.length + 1) [] cs

/-- Split a maximal run of decimal digits off the front of the input. -/
def takeDigits : List Char → List Char × List Char
  | [] => ([], [])
  | c :: cs =>
    if c.isDigit then
      let p := takeDigits cs
      (c :: p.1, p.2)
    else ([], c :: cs)

/-- Numeric value of a digit run. -/
def digitsToNat (ds : List Char) : Nat :=
  ds.foldl (fun a c => a * 10 + (c.toNat - 48)) 0

/-- Parse a JSON number.  Modelling note: only integer syntax is
modelled; a fractional part or exponent makes the parse fail, whereas
`JSON.parse` would accept it.  No claim under verification involves
non-integer numbers. -/
def parseNum (cs : List Char) : Option (Json × List Char) :=
  let (neg, cs') := match cs with
    | '-' :: r => (true, r)
    | r => (false, r)
  match takeDigits cs' with
  | ([], _) => none
  | (d :: ds, rest) =>
    if d = '0' ∧ ds ≠ [] then none
    else
      match rest with
      | '.' :: _ => none
      | 'e' :: _ => none
      | 'E' :: _ => none
      | _ =>
        let v : Int := Int.ofNat (digitsToNat (d :: ds))
        some (.num (if neg then -v else v), rest)

mutual

/-- Parse one JSON value (after optional leading whitespace). -/
def parseVal : Nat → List Char → Option (Json × List Char)
  | 0, _ => none
  | fuel + 1, cs₀ =>
    match skipWs cs₀ with
    | [] => none
    | c :: rest =>
      if c = '"' then
        match parseStrLit rest with
        | some (s, r) => some (.str s, r)
        | none => none
      else if c = lbrace then
        match parseFields fuel rest with
        | some (fs, r) => some (.obj fs, r)
        | none => none
      else if c = '[' then
        match parseElems fuel rest with
        | some (es, r) => some (.arr es, r)
        | none => none
      else if c = 't' then
        match rest with
        | 'r' :: 'u' :: 'e' :: r => some (.bool true, r)
        | _ => none
      else if c = 'f' then
        match rest with
        | 'a' :: 'l' :: 's' :: 'e' :: r => some (.bool false, r)
        | _ => none
      else if c = 'n' then
        match rest with
        | 'u' :: 'l' :: 'l' :: r => some (.null, r)
        | _ => none
      else if c = '-' ∨ c.isDigit then parseNum (c :: rest)
      else none

/-- Parse array elements, right after `[`. -/
def parseElems : Nat → List Char → Option (List Json × List Char)
  | 0, _ => none
  | fuel + 1, cs₀ =>
    match skipWs cs₀ with
    | [] => none
    | c :: rest =>
      if c = ']' then some ([], rest)
      else
        match parseVal fuel (c :: rest) with
        | some (j, r) =>
          match parseElemsRest fuel r with
          | some (js, r') => some (j :: js, r')
          | none => none
        | none => none

/-- Parse `, value`* `]` after an array element. -/
def parseElemsRest : Nat → List Char → Option (List Json × List Char)
  | 0, _ => none
  | fuel + 1, cs₀ =>
    match skipWs cs₀ with
    | [] => none
    | c :: rest =>
      if c = ']' then some ([], rest)
      else if c = ',' then
        match parseVal fuel rest with
        | some (j, r) =>
          match parseElemsRest fuel r with
          | some (js, r') => some (j :: js, r')
          | none => none
        | none => none
      else none

/-- Parse object fields, right after the opening brace. -/
def parseFields : Nat → List Char → Option (List (String × Json) × List Char)
  | 0, _ => none
  | fuel + 1, cs₀ =>
    match skipWs cs₀ with
    | [] => none
    | c :: rest =>
      if c = rbrace then some ([], rest)
      else if c = '"' then
        match parseStrLit rest with
        | some (k, r) =>
          match skipWs r with
          | ':' :: r' =>
            match parseVal fuel r' with
            | some (v, r'') =>
              match parseFieldsRest fuel r'' with
              | some (fs, r3) => some ((k, v) :: fs, r3)
              | none => none
            | none => none
          | _ => none
        | none => none
      else none

/-- Parse `, "key": value`* and the closing brace after an object field. -/
def parseFieldsRest : Nat → List Char → Option (List (String × Json) × List Char)
  | 0, _ => none
  | fuel + 1, cs₀ =>
    match skipWs cs₀ with
    | [] => none
    | c :: rest =>
      if c = rbrace then some ([], rest)
      else if c = ',' then
        match skipWs rest with
        | q :: r =>
          if q = '"' then
            match parseStrLit r with
            | some (k, r') =>
              match skipWs r' with
              | ':' :: r'' =>
                match parseVal fuel r'' with
                | some (v, r3) =>
                  match parseFieldsRest fuel r3 with
                  | some (fs, r4) => some ((k, v) :: fs, r4)
                  | none => none
                | none => none
              | _ => none
            | none => none
          else none
        | [] => none
      else none

end

/-- Model of `JSON.parse`: parse a complete JSON document; fails unless
the whole input (up to trailing whitespace) is consumed. -/
def Json.parse (s : String) : Option Json :=
  match parseVal (8 * s.data.length + 16) s.data with
  | some (j, rest) => if skipWs rest = [] then some j else none
  | none => none

mutual

/-- Model of JavaScript string coercion `String(v)` (used by `+` on
strings and template literals).  Modelling note: a `null` inside an
array coerces to `"null"` here, where JavaScript's `Array.prototype.toString`
renders it as the empty string; no claim involves that corner. -/
def jsToString : Json → String
  | .null => "null"
  | .bool b => if b then "true" else "false"
  | .num n => toString n
  | .str s => s
  | .arr xs => jsToStringList xs
  | .obj _ => "[object Object]"

/-- Comma-joined coercion of array elements, as `Array.prototype.toString`. -/
def jsToStringList : List Json → String
  | [] => ""
  | [x] => jsToString x
  | x :: y :: xs => jsToString x ++ "," ++ jsToStringList (y :: xs)

end

/-- Coercion to string of a possibly-`undefined` value (`undefined` is
modelled as `none`): JavaScript renders `undefined` as `"undefined"`. -/
def jsCoerceUndef : Option Json → String
  | none => "undefined"
  | some j => jsToString j

/-- JavaScript truthiness of a possibly-`undefined` value. -/
def jsTruthy : Option Json → Bool
  | none => false
  | some .null => false
  | some (.bool b) => b
  | some (.num n) => n ≠ 0
  | some (.str s) => s ≠ ""
  | some (.arr _) => true
  | some (.obj _) => true

/-- Property access `v.k` on a parsed value: `undefined` (`none`) unless
`v` is an object with field `k`; for duplicate keys `JSON.parse` keeps
the last occurrence, hence the `foldl`. -/
def Json.getField (j : Json) (k : String) : Option Json :=
  match j with
  | .obj fs => fs.foldl (fun acc f => if f.1 = k then some f.2 else acc) none
  | _ => none

/-- Strict equality `===` between two possibly-`undefined` parsed values.
Freshly parsed objects and arrays are distinct references, hence never
strictly equal. -/
def jsEq : Option Json → Option Json → Bool
  | none, none => true
  | some .null, some .null => true
  | some (.bool a), some (.bool b) => a = b
  | some (.num a), some (.num b) => a = b
  | some (.str a), some (.str b) => a = b
  | _, _ => false

/-- Escape one character for a JSON string literal. -/
def jsonEscapeChar (c : Char) : String :=
  if c = '"' then "\\\""
  else if c = '\\' then "\\\\"
  else if c = '\n' then "\\n"
  else if c = '\t' then "\\t"
  else if c = '\r' then "\\r"
  else String.mk [c]

/-- Quote a string as a JSON string literal. -/
def jsonQuote (s : String) : String :=
  "\"" ++ String.join (s.data.map jsonEscapeChar) ++ "\""

mutual

/-- Model of `JSON.stringify` on parsed values (no indentation). -/
def Json.stringify : Json → String
  | .null => "null"
  | .bool b => if b then "true" else "false"
  | .num n => toString n
  | .str s => jsonQuote s
  | .arr xs => "[" ++ Json.stringifyList xs ++ "]"
  | .obj fs => String.mk [lbrace] ++ Json.stringifyFields fs ++ String.mk [rbrace]

/-- Comma-separated stringification of array elements. -/
def Json.stringifyList : List Json → String
  | [] => ""
  | [x] => Json.stringify x
  | x :: y :: xs => Json.stringify x ++ "," ++ Json.stringifyList (y :: xs)

/-- Comma-separated stringification of object fields. -/
def Json.stringifyFields : List (String × Json) → String
  | [] => ""
  | [(k, v)] => jsonQuote k ++ ":" ++ Json.stringify v
  | (k, v) :: f :: fs => jsonQuote k ++ ":" ++ Json.stringify v ++ "," ++ Json.stringifyFields (f :: fs)

end

/-! ## Session controller state

Embedding of the React state owned by `ChatView` that the streaming
session controller reads and writes, plus the per-turn locals of
`sendMessage` (`accumulated`, `tokenUsage`).  UI-only concerns (message
ids, timestamps, the panel's `streamingSessionId`) are outside the
claims and are not modelled; `setPendingApprovalSessionId` is kept
because claim C8 mentions the permission gate's immediate effects.
The bare `setTimeout(() => setStatusText(undefined), 2000)` scheduled by
a `status` event carrying a `session_id` is modelled by a counter of
pending timers (`pendingStatusTimers`); firing one is the separate step
`fireStatusTimer` (the source never cancels these timers). -/

/-- JavaScript `s.startsWith(m)`. -/
def jsStartsWith (s m : String) : Bool := s.data.take m.data.length = m.data

/-- JavaScript `s.slice(n)` for nonnegative `n` within the string. -/
def jsSliceFrom (s : String) (n : Nat) : String := String.mk (s.data.drop n)

/-- JavaScript whitespace stripped by `trim` (the common subset). -/
def isJsWs (c : Char) : Bool :=
  c = ' ' || c = '\t' || c = '\n' || c = '\r' || c.toNat = 11 || c.toNat = 12

/-- JavaScript `s.trim()`. -/
def jsTrim (s : String) : String :=
  String.mk ((s.data.dropWhile isJsWs).reverse.dropWhile isJsWs).reverse

/-- JavaScript `s.split('\n')` on the underlying characters: every
part, including the trailing (possibly empty) one. -/
def splitNlStr : List Char → List (List Char)
  | [] => [[]]
  | c :: rest =>
    if c = '\n' then [] :: splitNlStr rest
    else
      match splitNlStr rest with
      | p :: ps => (c :: p) :: ps
      | [] => [[c]]

/-- JavaScript `s.split('\n')`. -/
def jsSplitNl (s : String) : List String := (splitNlStr s.data).map String.mk

/-- A tool invocation recorded from a `tool_use` event (fields are raw
parsed values; an absent field is `none` = `undefined`). -/
structure ToolUseInfo where
  id : Option Json
  name : Option Json
  input : Option Json
deriving Repr

/-- A tool result recorded from a `tool_result` event. -/
structure ToolResultInfo where
  tool_use_id : Option Json
  content : Option Json
deriving Repr

/-- A chat message as committed to the message list (`role`, `content`,
`token_usage` as in the source's `Message`). -/
structure Message where
  role : String
  content : String
  token_usage : Option String
deriving Repr, DecidableEq

/-- The component state of `ChatView` that the session controller
touches, together with `sendMessage`'s turn locals. -/
structure SessionState where
  sessionId : String
  messages : List Message
  isStreaming : Bool
  /-- the `accumulated` local, kept in sync with `streamingContent`
  and `accumulatedRef` by the source. -/
  accumulated : String
  toolUses : List ToolUseInfo
  toolResults : List ToolResultInfo
  streamingToolOutput : String
  statusText : Option String
  pendingPermission : Option Json
  permissionResolved : Option String
  pendingApprovalSessionId : String
  /-- the `tokenUsage` local of `sendMessage`. -/
  tokenUsage : Option Json
  /-- number of scheduled, not yet fired, 2-second status-clear timers. -/
  pendingStatusTimers : Nat
deriving Repr

/-- The initial state of a fresh `ChatView` with no prior messages. -/
def initSt : SessionState :=
  { sessionId := "s0", messages := [], isStreaming := false, accumulated := ""
    toolUses := [], toolResults := [], streamingToolOutput := ""
    statusText := none, pendingPermission := none, permissionResolved := none
    pendingApprovalSessionId := "", tokenUsage := none, pendingStatusTimers := 0 }

/-- `case 'tool_use'`: parse `event.data`; on success clear the live
tool-output window, then append the invocation unless its `id` is
already present (`prev.some(t => t.id === toolData.id)`).  Note the
clear happens whenever the payload parses, before the duplicate check. -/
def toolUseCase (st : SessionState) (d : Option Json) : SessionState :=
  match Json.parse (jsCoerceUndef d) with
  | some td =>
    if st.toolUses.any (fun u => jsEq u.id (td.getField ("id"))) then
      { st with streamingToolOutput := "" }
    else
      { st with streamingToolOutput := ""
                toolUses := st.toolUses ++
                  [⟨td.getField ("id"), td.getField ("name"), td.getField ("input")⟩] }
  | none => st

/-- `case 'tool_result'`: parse `event.data`; on success clear the live
output window and append the result (never deduplicated). -/
def toolResultCase (st : SessionState) (d : Option Json) : SessionState :=
  match Json.parse (jsCoerceUndef d) with
  | some rd =>
    { st with streamingToolOutput := ""
              toolResults := st.toolResults ++
                [⟨rd.getField ("tool_use_id"), rd.getField ("content")⟩] }
  | none => st

/-- `Math.round` rendered into a template literal; only the integer case
matters to the source's heartbeat string (non-numbers render as NaN,
except the JS numeric coercions of booleans and null). -/
def mathRoundStr : Option Json → String
  | some (.num n) => toString n
  | some (.bool b) => if b then "1" else "0"
  | some .null => "0"
  | _ => "NaN"

/-- The heartbeat status string `Running <tool>... (<n>s)`. -/
def heartbeatText (p : Json) : String :=
  "Running " ++ jsCoerceUndef (p.getField ("tool_name")) ++ "... (" ++
    mathRoundStr (p.getField ("elapsed_time_seconds")) ++ "s)"

/-- JavaScript `s.slice(-n)` for `n ≤ s.length`: the last `n` characters. -/
def jsSliceLast (s : String) (n : Nat) : String :=
  String.mk (s.data.drop (s.data.length - n))

/-- The cap applied to the live tool-output buffer: when the new value
exceeds 5000 characters keep exactly its last 5000 (`next.slice(-5000)`). -/
def capOutput (next : String) : String :=
  if next.length > 5000 then jsSliceLast next 5000 else next

/-- Append one diagnostic chunk to the live tool-output buffer:
`prev + (prev ? '\n' : '') + data`, capped. -/
def appendToolOutput (st : SessionState) (d : String) : SessionState :=
  { st with streamingToolOutput :=
      capOutput (st.streamingToolOutput ++
        (if st.streamingToolOutput ≠ "" then "\n" else "") ++ d) }

/-- `case 'tool_output'`: a payload parsing as JSON with truthy
`_progress` is a heartbeat and only updates the status text; any other
payload is appended to the live output buffer. -/
def toolOutputCase (st : SessionState) (d : Option Json) : SessionState :=
  match Json.parse (jsCoerceUndef d) with
  | some p =>
    if jsTruthy (p.getField ("_progress")) then
      { st with statusText := some (heartbeatText p) }
    else appendToolOutput st (jsCoerceUndef d)
  | none => appendToolOutput st (jsCoerceUndef d)

/-- `case 'status'`: parsed payload with truthy `session_id` sets the
transient `Connected (<model>)` status and schedules the 2-second
clear timer; truthy `notification` sets `message || title || undefined`;
otherwise the raw payload (when it is a string) is the status; on parse
failure the status is `event.data || undefined`. -/
def statusCase (st : SessionState) (d : Option Json) : SessionState :=
  match Json.parse (jsCoerceUndef d) with
  | some sd =>
    if jsTruthy (sd.getField ("session_id")) then
      { st with
          statusText := some ("Connected (" ++
            (if jsTruthy (sd.getField ("model")) then jsCoerceUndef (sd.getField ("model"))
             else "claude") ++ ")")
          pendingStatusTimers := st.pendingStatusTimers + 1 }
    else if jsTruthy (sd.getField ("notification")) then
      { st with statusText :=
          if jsTruthy (sd.getField ("message")) then some (jsCoerceUndef (sd.getField ("message")))
          else if jsTruthy (sd.getField ("title")) then some (jsCoerceUndef (sd.getField ("title")))
          else none }
    else
      { st with statusText := match d with
          | some (.str s) => some s
          | _ => none }
  | none =>
    { st with statusText := if jsTruthy d then some (jsCoerceUndef d) else none }

/-- `case 'result'`: a parsed payload with truthy `usage` is captured
into the `tokenUsage` local (overwriting any earlier capture); every
`result` event then clears the status text. -/
def resultCase (st : SessionState) (d : Option Json) : SessionState :=
  let st' := match Json.parse (jsCoerceUndef d) with
    | some rd =>
      if jsTruthy (rd.getField ("usage")) then { st with tokenUsage := rd.getField ("usage") }
      else st
    | none => st
  { st' with statusText := none }

/-- `case 'permission_request'`: a parsed payload becomes the pending
permission request; the resolved marker is cleared and the panel is
pointed at this session. -/
def permissionCase (st : SessionState) (d : Option Json) : SessionState :=
  match Json.parse (jsCoerceUndef d) with
  | some pd =>
    { st with pendingPermission := some pd, permissionResolved := none
              pendingApprovalSessionId := st.sessionId }
  | none => st

/-- Fold one decoded protocol event (`switch (event.type)`) into the
session state.  An event whose `type` is not one of the handled string
labels — including a missing or non-string `type` — changes nothing;
`done` is an explicit no-op. -/
def handleEvent (st : SessionState) (j : Json) : SessionState :=
  match j.getField ("type") with
  | some (.str t) =>
    if t = "text" then
      { st with accumulated := st.accumulated ++ jsCoerceUndef (j.getField ("data")) }
    else if t = "tool_use" then toolUseCase st (j.getField ("data"))
    else if t = "tool_result" then toolResultCase st (j.getField ("data"))
    else if t = "tool_output" then toolOutputCase st (j.getField ("data"))
    else if t = "status" then statusCase st (j.getField ("data"))
    else if t = "result" then resultCase st (j.getField ("data"))
    else if t = "permission_request" then permissionCase st (j.getField ("data"))
    else if t = "error" then
      { st with accumulated := st.accumulated ++ "\n\n**Error:** " ++ jsCoerceUndef (j.getField ("data")) }
    else st
  | _ => st

/-- The `data: ` frame marker. -/
def dataMarker : String := "data: "

/-- Process one complete line of the stream: lines without the
`data: ` marker are skipped; the payload after the marker is
`JSON.parse`d inside a try/catch, a failure dropping the frame. -/
def processLine (st : SessionState) (line : String) : SessionState :=
  if jsStartsWith line dataMarker then
    match Json.parse (jsSliceFrom line 6) with
    | some j => handleEvent st j
    | none => st
  else st

/-- Fold a list of complete lines in arrival order. -/
def foldLines (st : SessionState) (lines : List String) : SessionState :=
  lines.foldl processLine st

/-- One iteration of the read loop on a decoded chunk: append to the
held-back buffer, split on newlines, keep the last (possibly
incomplete) line as the new buffer, and process the complete lines. -/
def feedFrame (acc : SessionState × String) (chunk : String) : SessionState × String :=
  let parts := jsSplitNl (acc.2 ++ chunk)
  (foldLines acc.1 parts.dropLast, parts.getLastD "")

/-- Run the whole read loop over the decoded chunks of one response
stream; the framer buffer starts empty and its final (unterminated)
content is discarded, as in the source. -/
def foldChunks (st : SessionState) (chunks : List String) : SessionState :=
  (chunks.foldl feedFrame (st, "")).1

/-- The state updates performed by `sendMessage` before issuing the
request: optimistic user message, streaming flag, and reset of the
per-turn accumulators (`streamingToolOutput`, the permission fields and
any scheduled status timers are *not* touched here). -/
def startTurn (st : SessionState) (content : String) : SessionState :=
  { st with messages := st.messages ++ [⟨"user", content, none⟩]
            isStreaming := true, accumulated := ""
            toolUses := [], toolResults := [], statusText := none
            tokenUsage := none }

/-- The committed `token_usage` field: `tokenUsage ? JSON.stringify(tokenUsage) : null`. -/
def usageStringify (t : Option Json) : Option String :=
  match t with
  | some u => if jsTruthy (some u) then some u.stringify else none
  | none => none

/-- Normal completion: commit one assistant message with the trimmed
accumulated text and the stringified usage, unless the trimmed text is
empty (`if (accumulated.trim())`). -/
def commitNormal (st : SessionState) : SessionState :=
  if jsTrim st.accumulated ≠ "" then
    { st with messages := st.messages ++
        [⟨"assistant", jsTrim st.accumulated, usageStringify st.tokenUsage⟩] }
  else st

/-- Abort (`AbortError`): commit the trimmed partial text with the
stopped-early annotation, unless the trimmed text is empty. -/
def commitAbort (st : SessionState) : SessionState :=
  if jsTrim st.accumulated ≠ "" then
    { st with messages := st.messages ++
        [⟨"assistant", jsTrim st.accumulated ++ "\n\n*(generation stopped)*", none⟩] }
  else st

/-- Any other thrown error: commit a single error-report message. -/
def commitError (st : SessionState) (msg : String) : SessionState :=
  { st with messages := st.messages ++ [⟨"assistant", "**Error:** " ++ msg, none⟩] }

/-- The `finally` block of `sendMessage`: unconditional reset of the
turn state, the streaming flag and the permission gate.  The scheduled
status-clear timers are *not* cancelled (the source has no
`clearTimeout`), which `pendingStatusTimers` records faithfully. -/
def finallyReset (st : SessionState) : SessionState :=
  { st with isStreaming := false, accumulated := ""
            toolUses := [], toolResults := [], streamingToolOutput := ""
            statusText := none, pendingPermission := none
            permissionResolved := none, pendingApprovalSessionId := "" }

/-- How a turn's request/stream ends, as observed by `sendMessage`'s
try/catch: the stream ends normally, the abort signal fires
(`AbortError`), or some other error is thrown mid-stream. -/
inductive TurnEnd where
  | normal : TurnEnd
  | abort : TurnEnd
  | failMid (msg : String) : TurnEnd

/-- The environment of one `sendMessage` call: either the request fails
before any frame is read (non-ok response or thrown fetch error), or a
stream delivers a list of decoded text chunks and then ends. -/
inductive TurnOutcome where
  | fetchFail (msg : String) : TurnOutcome
  | stream (chunks : List String) (fin : TurnEnd) : TurnOutcome

/-- The session controller's `send`: a no-op while a turn is already
streaming; otherwise start the turn, consume the stream, commit
according to how the turn ended, and run the `finally` cleanup. -/
def sendMessage (st : SessionState) (content : String) (outcome : TurnOutcome) : SessionState :=
  if st.isStreaming then st
  else
    match outcome with
    | .fetchFail msg => finallyReset (commitError (startTurn st content) msg)
    | .stream chunks fin =>
      let mid := foldChunks (startTurn st content) chunks
      match fin with
      | .normal => finallyReset (commitNormal mid)
      | .abort => finallyReset (commitAbort mid)
      | .failMid msg => finallyReset (commitError mid msg)

/-- Firing one of the scheduled 2-second status-clear timers: the
callback is `() => setStatusText(undefined)`, capturing nothing about
the turn it was scheduled in. -/
def fireStatusTimer (st : SessionState) : SessionState :=
  if st.pendingStatusTimers = 0 then st
  else { st with statusText := none, pendingStatusTimers := st.pendingStatusTimers - 1 }

/-- The three decisions offered by the approval UI. -/
inductive PermDecision where
  | allow : PermDecision
  | allow_session : PermDecision
  | deny : PermDecision
deriving DecidableEq

/-- Whether the permission side-channel POST resolves or rejects. -/
inductive NetResult where
  | ok : NetResult
  | failed : NetResult

/-- The body POSTed to `/api/chat/permission`. -/
structure PermBody where
  permissionRequestId : Option Json
  behavior : String
  message : Option String
  updatedPermissions : Option Json
deriving Repr

/-- The outcome of `handlePermissionResponse`: the component state after
the handler ran to completion, the body sent (none when there was no
pending request), and whether the deferred 1-second clear of the
permission state was scheduled. -/
structure PermSubmit where
  state : SessionState
  body : Option PermBody
  clearScheduled : Bool

/-- `handlePermissionResponse`: a no-op without a pending request;
otherwise build the decision body, immediately mark the request
resolved and clear the panel's pending-approval marker, send the body
(a rejection is swallowed — `net` does not influence the state), and
schedule the deferred clear of the permission state. -/
def handlePermissionResponse (st : SessionState) (d : PermDecision) (net : NetResult) :
    PermSubmit :=
  match net, st.pendingPermission with
  | _, none => ⟨st, none, false⟩
  | _, some pp =>
    let body : PermBody :=
      if d = .deny then
        ⟨pp.getField ("permissionRequestId"), "deny", some "User denied permission", none⟩
      else
        ⟨pp.getField ("permissionRequestId"), "allow", none,
          if d = .allow_session ∧ jsTruthy (pp.getField ("suggestions")) then
            pp.getField ("suggestions")
          else none⟩
    ⟨{ st with permissionResolved := some (if d = .deny then "deny" else "allow")
               pendingApprovalSessionId := "" },
     some body, true⟩

/-- The deferred callback scheduled by `handlePermissionResponse`:
clear the pending request and the resolved marker. -/
def runPermissionClear (st : SessionState) : SessionState :=
  { st with pendingPermission := none, permissionResolved := none }

/-! ## Byte-level line framer

Model of the read loop's framing at the byte level, for claim C2:
`TextDecoder(..., {stream: true})` turns the raw byte chunks into text
without assuming chunk boundaries respect UTF-8 sequences (it holds an
incomplete trailing sequence back), and the loop then appends to the
held-back line buffer, splits on `\n`, pops the trailing incomplete
line, and keeps the `data: `-prefixed lines as frames.

Bytes are `Nat`s (< 256 in any real stream) and decoded text is a list
of code points, so that the model is independent of Lean's own string
representation.  The decoder processes one byte at a time, emitting a
code point whenever the pending bytes complete a UTF-8 sequence; its
error recovery (replacement characters) is simplified relative to the
WHATWG spec, which no claim depends on — on well-formed input it is
exact. -/

/-- Number of bytes of the UTF-8 sequence introduced by a lead byte
(0 when the byte cannot begin a sequence). -/
def leadLen (b : Nat) : Nat :=
  if b < 0x80 then 1
  else if b < 0xC0 then 0
  else if b < 0xE0 then 2
  else if b < 0xF0 then 3
  else if b < 0xF8 then 4
  else 0

/-- Whether a byte is a UTF-8 continuation byte. -/
def contB (b : Nat) : Bool := decide (0x80 ≤ b ∧ b < 0xC0)

/-- Decode one complete UTF-8 sequence into its code point. -/
def decodeSeq : List Nat → Nat
  | [b] => b
  | [b, c] => (b % 0x20) * 64 + c % 64
  | [b, c, d] => (b % 0x10) * 4096 + (c % 64) * 64 + d % 64
  | [b, c, d, e] => (b % 8) * 262144 + (c % 64) * 4096 + (d % 64) * 64 + e % 64
  | _ => 0xFFFD

/-- Feed one byte to the streaming decoder: `p` is the pending
incomplete sequence; returns emitted code points and the new pending
bytes. -/
def utf8Step (p : List Nat) (b : Nat) : List Nat × List Nat :=
  match p with
  | [] =>
    if leadLen b = 1 then ([b], [])
    else if 2 ≤ leadLen b then ([], [b])
    else ([0xFFFD], [])
  | l :: _ =>
    if contB b then
      if (p ++ [b]).length = leadLen l then ([decodeSeq (p ++ [b])], [])
      else ([], p ++ [b])
    else
      if leadLen b = 1 then ([0xFFFD, b], [])
      else if 2 ≤ leadLen b then ([0xFFFD], [b])
      else ([0xFFFD, 0xFFFD], [])

/-- Feed a chunk of bytes to the streaming decoder, one byte at a time. -/
def utf8Decode : List Nat → List Nat → List Nat × List Nat
  | p, [] => ([], p)
  | p, b :: bs =>
    let s := utf8Step p b
    let r := utf8Decode s.2 bs
    (s.1 ++ r.1, r.2)

/-- Split a sequence of code points into the complete (newline-
terminated) lines and the trailing incomplete line: exactly
`buffer.split('\n')` followed by popping the last element. -/
def splitNl : List Nat → List (List Nat) × List Nat
  | [] => ([], [])
  | c :: rest =>
    if c = 10 then ([] :: (splitNl rest).1, (splitNl rest).2)
    else
      match splitNl rest with
      | (l :: ls, r) => ((c :: l) :: ls, r)
      | ([], r) => ([], c :: r)

/-- The `data: ` marker as code points. -/
def dataMarkerCp : List Nat := [100, 97, 116, 97, 58, 32]

/-- The frames among a list of complete lines: the payloads of the
lines that start with `data: `. -/
def framesOfLines (ls : List (List Nat)) : List (List Nat) :=
  (ls.filter (fun l => l.take 6 = dataMarkerCp)).map (fun l => l.drop 6)

/-- The combined framer state: the decoder's pending bytes and the
held-back incomplete line. -/
structure FramerSt where
  pending : List Nat
  lineBuf : List Nat
deriving DecidableEq, Repr

/-- Feed one byte chunk through the decoder and the line splitter,
returning the new state and the complete lines produced. -/
def feedChunkBytes (st : FramerSt) (chunk : List Nat) : FramerSt × List (List Nat) :=
  let d := utf8Decode st.pending chunk
  let s := splitNl (st.lineBuf ++ d.1)
  (⟨d.2, s.2⟩, s.1)

/-- Run the framer over a list of byte chunks, collecting all complete
lines in order. -/
def runChunks (st : FramerSt) : List (List Nat) → FramerSt × List (List Nat)
  | [] => (st, [])
  | c :: cs =>
    let f := feedChunkBytes st c
    let r := runChunks f.1 cs
    (r.1, f.2 ++ r.2)

/-- The ordered sequence of `data: `-prefixed frames produced from a
segmentation of the byte stream into chunks. -/
def pipelineFrames (bs : List (List Nat)) : List (List Nat) :=
  framesOfLines (runChunks ⟨[], []⟩ bs).2

/-! ## Framer lemmas -/

/-- Byte-at-a-time decoding splits over chunk concatenation. -/
lemma utf8Decode_append (x y : List Nat) :
    ∀ p, utf8Decode p (x ++ y) =
      ((utf8Decode p x).1 ++ (utf8Decode (utf8Decode p x).2 y).1,
       (utf8Decode (utf8Decode p x).2 y).2) := by
  induction x with
  | nil => intro p; simp [utf8Decode]
  | cons b bs ih =>
    intro p
    simp [List.cons_append, utf8Decode, ih, List.append_assoc, List.append_eq]

/-- The trailing incomplete line returned by `splitNl` contains no
newline: re-splitting it yields no complete line. -/
lemma splitNl_snd_fixed (l : List Nat) :
    splitNl ((splitNl l).2) = ([], (splitNl l).2) := by
  induction l with
  | nil => simp [splitNl]
  | cons c rest ih =>
    by_cases hc : c = 10
    · simp [splitNl, hc, ih]
    · rcases hp : splitNl rest with ⟨p1, p2⟩
      have h2 : (splitNl rest).2 = p2 := by rw [hp]
      rw [h2] at ih
      rcases p1 with _ | ⟨l0, ls⟩
      · simp [splitNl, hc, hp, ih]
      · simp [splitNl, hc, hp, ih]

/-- Splitting into lines commutes with concatenation once the trailing
incomplete line of the first part is carried into the second. -/
lemma splitNl_append (a b : List Nat) :
    splitNl (a ++ b) =
      ((splitNl a).1 ++ (splitNl ((splitNl a).2 ++ b)).1,
       (splitNl ((splitNl a).2 ++ b)).2) := by
  induction a with
  | nil => simp [splitNl]
  | cons c rest ih =>
    by_cases hc : c = 10
    · subst hc
      simp [splitNl, ih]
    · rcases hp : splitNl rest with ⟨p1, p2⟩
      have ih' : splitNl (rest ++ b) =
          (p1 ++ (splitNl (p2 ++ b)).1, (splitNl (p2 ++ b)).2) := by
        rw [ih, hp]
      rcases p1 with _ | ⟨l0, ls⟩
      · rcases hq : splitNl (p2 ++ b) with ⟨q1, q2⟩
        rw [hq] at ih'
        rcases q1 with _ | ⟨m0, ms⟩
        · simp [splitNl, hc, hp, ih', hq]
        · simp [splitNl, hc, hp, ih', hq]
      · simp [splitNl, hc, hp, ih']

/-- Running the framer over any chunk list equals decoding and
splitting the whole joined byte sequence, provided the held-back line
is newline-free (as every reachable buffer is). -/
lemma runChunks_join (cs : List (List Nat)) :
    ∀ p b, splitNl b = ([], b) →
      runChunks ⟨p, b⟩ cs =
        (⟨(utf8Decode p cs.flatten).2, (splitNl (b ++ (utf8Decode p cs.flatten).1)).2⟩,
         (splitNl (b ++ (utf8Decode p cs.flatten).1)).1) := by
  induction cs with
  | nil =>
    intro p b hb
    simp [runChunks, utf8Decode, hb]
  | cons c cs ih =>
    intro p b hb
    have hbuf : splitNl ((splitNl (b ++ (utf8Decode p c).1)).2) =
        ([], (splitNl (b ++ (utf8Decode p c).1)).2) := splitNl_snd_fixed _
    have hrec := ih (utf8Decode p c).2 ((splitNl (b ++ (utf8Decode p c).1)).2) hbuf
    simp only [runChunks, feedChunkBytes, hrec]
    rw [List.flatten_cons, utf8Decode_append, ← List.append_assoc,
      splitNl_append (b ++ (utf8Decode p c).1)]

/-! ## Session model lemmas -/

/-- Folding an event never touches the committed message list. -/
lemma handleEvent_messages (st : SessionState) (j : Json) :
    (handleEvent st j).messages = st.messages := by
  unfold handleEvent toolUseCase toolResultCase toolOutputCase statusCase
    resultCase permissionCase appendToolOutput
  repeat' split
  all_goals rfl

/-- Folding an event never touches the streaming flag. -/
lemma handleEvent_isStreaming (st : SessionState) (j : Json) :
    (handleEvent st j).isStreaming = st.isStreaming := by
  unfold handleEvent toolUseCase toolResultCase toolOutputCase statusCase
    resultCase permissionCase appendToolOutput
  repeat' split
  all_goals rfl

/-- Processing a line never touches the committed message list. -/
lemma processLine_messages (st : SessionState) (line : String) :
    (processLine st line).messages = st.messages := by
  unfold processLine
  repeat' split
  all_goals first
    | rfl
    | exact handleEvent_messages st _

/-- Processing a line never touches the streaming flag. -/
lemma processLine_isStreaming (st : SessionState) (line : String) :
    (processLine st line).isStreaming = st.isStreaming := by
  unfold processLine
  repeat' split
  all_goals first
    | rfl
    | exact handleEvent_isStreaming st _

/-- Folding lines never touches the committed message list. -/
lemma foldLines_messages (lines : List String) :
    ∀ st, (foldLines st lines).messages = st.messages := by
  induction lines with
  | nil => intro st; rfl
  | cons l ls ih =>
    intro st
    simp only [foldLines, List.foldl_cons] at ih ⊢
    rw [ih, processLine_messages]

/-- Folding lines never touches the streaming flag. -/
lemma foldLines_isStreaming (lines : List String) :
    ∀ st, (foldLines st lines).isStreaming = st.isStreaming := by
  induction lines with
  | nil => intro st; rfl
  | cons l ls ih =>
    intro st
    simp only [foldLines, List.foldl_cons] at ih ⊢
    rw [ih, processLine_isStreaming]

/-- The read loop never touches the committed message list. -/
lemma foldChunks_messages (chunks : List String) :
    ∀ st buf, ((chunks.foldl feedFrame (st, buf)).1).messages = st.messages := by
  induction chunks with
  | nil => intro st buf; rfl
  | cons c cs ih =>
    intro st buf
    simp only [List.foldl_cons, feedFrame]
    rw [ih, foldLines_messages]

/-- The read loop never touches the streaming flag. -/
lemma foldChunks_isStreaming (chunks : List String) :
    ∀ st buf, ((chunks.foldl feedFrame (st, buf)).1).isStreaming = st.isStreaming := by
  induction chunks with
  | nil => intro st buf; rfl
  | cons c cs ih =>
    intro st buf
    simp only [List.foldl_cons, feedFrame]
    rw [ih, foldLines_isStreaming]

/-- A non-no-op `send` always begins by appending the optimistic user
message; whatever else the turn does only appends after it. -/
lemma send_appends_user (st : SessionState) (c : String) (o : TurnOutcome)
    (h : st.isStreaming = false) :
    ∃ rest, (sendMessage st c o).messages = st.messages ++ ⟨"user", c, none⟩ :: rest := by
  unfold sendMessage
  rw [h]
  simp only [Bool.false_eq_true, if_false]
  cases o with
  | fetchFail msg =>
    exact ⟨[⟨"assistant", "**Error:** " ++ msg, none⟩], by
      simp [finallyReset, commitError, startTurn]⟩
  | stream chunks fin =>
    have hmid : (foldChunks (startTurn st c) chunks).messages =
        st.messages ++ [⟨"user", c, none⟩] := by
      unfold foldChunks
      rw [foldChunks_messages]
      rfl
    cases fin with
    | normal =>
      by_cases htr : jsTrim (foldChunks (startTurn st c) chunks).accumulated ≠ ""
      · refine ⟨[⟨"assistant", jsTrim (foldChunks (startTurn st c) chunks).accumulated,
          usageStringify (foldChunks (startTurn st c) chunks).tokenUsage⟩], ?_⟩
        simp [finallyReset, commitNormal, htr, hmid]
      · refine ⟨[], ?_⟩
        simp [finallyReset, commitNormal, htr, hmid]
    | abort =>
      by_cases htr : jsTrim (foldChunks (startTurn st c) chunks).accumulated ≠ ""
      · refine ⟨[⟨"assistant", jsTrim (foldChunks (startTurn st c) chunks).accumulated ++
          "\n\n*(generation stopped)*", none⟩], ?_⟩
        simp [finallyReset, commitAbort, htr, hmid]
      · refine ⟨[], ?_⟩
        simp [finallyReset, commitAbort, htr, hmid]
    | failMid msg =>
      refine ⟨[⟨"assistant", "**Error:** " ++ msg, none⟩], ?_⟩
      simp [finallyReset, commitError, hmid]

/-- `s.slice(-n)` never yields more than `n` characters. -/
lemma jsSliceLast_le (s : String) (n : Nat) : (jsSliceLast s n).length ≤ n := by
  show (s.data.drop (s.data.length - n)).length ≤ n
  rw [List.length_drop]
  omega

/-- The cap function meets its bound. -/
lemma capOutput_le (next : String) : (capOutput next).length ≤ 5000 := by
  unfold capOutput
  split
  · exact jsSliceLast_le _ _
  · rename_i h
    omega

/-- Appending to the live tool-output buffer always leaves it within
the 5000-character cap. -/
lemma appendToolOutput_le (st : SessionState) (d : String) :
    (appendToolOutput st d).streamingToolOutput.length ≤ 5000 :=
  capOutput_le _

set_option maxRecDepth 4096 in
/-- Folding one event preserves the 5000-character bound on the live
tool-output buffer. -/
lemma handleEvent_output_le (st : SessionState) (j : Json)
    (h : st.streamingToolOutput.length ≤ 5000) :
    (handleEvent st j).streamingToolOutput.length ≤ 5000 := by
  unfold handleEvent toolUseCase toolResultCase toolOutputCase statusCase
    resultCase permissionCase
  repeat' split
  all_goals first
    | exact h
    | exact appendToolOutput_le _ _
    | simp

/-- Processing one line preserves the bound. -/
lemma processLine_output_le (st : SessionState) (line : String)
    (h : st.streamingToolOutput.length ≤ 5000) :
    (processLine st line).streamingToolOutput.length ≤ 5000 := by
  unfold processLine
  repeat' split
  all_goals first
    | exact h
    | exact handleEvent_output_le st _ h

/-- Folding any line sequence preserves the bound. -/
lemma foldLines_output_le (lines : List String) :
    ∀ st, st.streamingToolOutput.length ≤ 5000 →
      (foldLines st lines).streamingToolOutput.length ≤ 5000 := by
  induction lines with
  | nil => intro st h; exact h
  | cons l ls ih =>
    intro st h
    simp only [foldLines, List.foldl_cons] at ih ⊢
    exact ih _ (processLine_output_le st l h)

/-! ## Claim theorems -/

/-- Claim C1: `send` is a no-op while a turn is already streaming, and
on every exit path of a turn (normal completion, cancellation by abort,
error before or during streaming) the `finally` cleanup leaves the text
buffer, invocation list, result list, live-output buffer and status
reset, the streaming flag cleared, and the permission gate idle — so a
subsequent send is never blocked. -/
theorem sendMessage_single_turn_and_cleanup (st : SessionState) (c : String) (o : TurnOutcome) :
    (st.isStreaming = true → sendMessage st c o = st) ∧
    (st.isStreaming = false →
      (sendMessage st c o).isStreaming = false ∧
      (sendMessage st c o).accumulated = "" ∧
      (sendMessage st c o).toolUses = [] ∧
      (sendMessage st c o).toolResults = [] ∧
      (sendMessage st c o).streamingToolOutput = "" ∧
      (sendMessage st c o).statusText = none ∧
      (sendMessage st c o).pendingPermission = none ∧
      (sendMessage st c o).permissionResolved = none ∧
      (sendMessage st c o).pendingApprovalSessionId = "") := by
  constructor
  · intro h
    simp [sendMessage, h]
  · intro h
    cases o with
    | fetchFail msg => simp [sendMessage, h, finallyReset]
    | stream chunks fin => cases fin <;> simp [sendMessage, h, finallyReset]

/-- Witness for C1 at concrete inputs: a send during streaming changes
nothing, and a completed send leaves the streaming flag cleared. -/
theorem sendMessage_single_turn_and_cleanup_witness :
    (sendMessage { initSt with isStreaming := true } ("x") (.fetchFail "e") =
      { initSt with isStreaming := true }) ∧
    (sendMessage initSt ("x") (.stream [] .normal)).isStreaming = false :=
  ⟨(sendMessage_single_turn_and_cleanup { initSt with isStreaming := true } ("x")
      (.fetchFail "e")).1 rfl,
   ((sendMessage_single_turn_and_cleanup initSt ("x") (.stream [] .normal)).2 rfl).1⟩

/-- Claim C2: the framer pipeline (streaming UTF-8 decode plus
line-splitting with the held-back trailing line) yields the identical
ordered sequence of `data: `-prefixed frames for every segmentation of
the same underlying byte sequence into chunks, including splits in the
middle of a frame and in the middle of a multi-byte UTF-8 character. -/
theorem framer_chunking_invariant (bs₁ bs₂ : List (List Nat))
    (h : bs₁.flatten = bs₂.flatten) :
    pipelineFrames bs₁ = pipelineFrames bs₂ := by
  unfold pipelineFrames
  rw [runChunks_join bs₁ [] [] rfl, runChunks_join bs₂ [] [] rfl, h]

/-- The bytes of `data: héllo\n` (`é` = `0xC3 0xA9`) as one chunk. -/
def segA : List (List Nat) := [[100, 97, 116, 97, 58, 32, 104, 0xC3, 0xA9, 108, 108, 111, 10]]

/-- The same bytes split mid-marker and mid-`é`. -/
def segB : List (List Nat) :=
  [[100, 97], [116, 97, 58, 32, 104, 0xC3], [0xA9, 108], [108, 111, 10]]

/-- Witness for C2: the two segmentations carry the same bytes, the
theorem applies, and both produce the single decoded frame `héllo`. -/
theorem framer_chunking_invariant_witness :
    segA.flatten = segB.flatten ∧ pipelineFrames segA = pipelineFrames segB ∧
    pipelineFrames segA = [[104, 233, 108, 108, 111]] :=
  ⟨by decide, framer_chunking_invariant segA segB (by decide), by decide⟩

/-- A valid `text` frame carrying `foo`. -/
def frameFoo : String := "data: \x7b\"type\":\"text\",\"data\":\"foo\"\x7d"

/-- A frame whose payload is not valid JSON. -/
def frameBad : String := "data: \x7bnot json"

/-- A valid `text` frame carrying `bar`. -/
def frameBar : String := "data: \x7b\"type\":\"text\",\"data\":\"bar\"\x7d"

/-- Claim C3: a frame whose JSON payload fails to parse is dropped in
isolation — folding any line sequence containing it equals folding the
sequence with it removed — and in particular a malformed frame
sandwiched between two valid `text` frames leaves both text payloads in
the buffer and the turn still commits both on normal completion. -/
theorem malformed_frame_dropped :
    (∀ (st : SessionState) (pre post : List String) (f : String),
        jsStartsWith f dataMarker = true → Json.parse (jsSliceFrom f 6) = none →
        foldLines st (pre ++ f :: post) = foldLines st (pre ++ post)) ∧
    (sendMessage initSt ("q")
        (.stream [frameFoo ++ "\n", frameBad ++ "\n", frameBar ++ "\n"] .normal)).messages =
      [⟨"user", "q", none⟩, ⟨"assistant", "foobar", none⟩] := by
  constructor
  · intro st pre post f h1 h2
    have hskip : ∀ S : SessionState, processLine S f = S := by
      intro S
      simp [processLine, h1, h2]
    unfold foldLines
    rw [List.foldl_append, List.foldl_append, List.foldl_cons, hskip]
  · decide

/-- Witness for C3: the malformed frame `data: {not json` is skipped. -/
theorem malformed_frame_dropped_witness :
    jsStartsWith frameBad dataMarker = true ∧ Json.parse (jsSliceFrom frameBad 6) = none ∧
    foldLines initSt ([] ++ frameBad :: []) = foldLines initSt ([] ++ []) :=
  ⟨by decide, rfl,
   malformed_frame_dropped.1 initSt [] [] frameBad (by decide) rfl⟩

/-- A turn state that has already recorded invocation id `1` and holds
live tool output. -/
def stDup : SessionState :=
  { initSt with
      isStreaming := true
      toolUses := [⟨some (.str "1"), some (.str "bash"), some (.obj [])⟩]
      streamingToolOutput := "out" }

/-- A `tool_use` event whose payload repeats id `1`. -/
def jDup : Json :=
  .obj [("type", .str "tool_use"),
        ("data", .str ("\x7b\"id\":\"1\",\"name\":\"bash\"\x7d"))]

/-- The parse of `jDup`'s payload. -/
def tdDup : Json := .obj [("id", .str "1"), ("name", .str "bash")]

/-- Claim C4 counterexample: folding a `tool_use` event whose id is
already present leaves the invocation list unchanged but clears the
live-output buffer (the source clears it before the duplicate check),
so the fold is not a no-op on the entire turn state. -/
theorem dup_tool_use_clears_output_cex :
    (handleEvent stDup jDup).toolUses = stDup.toolUses ∧
    stDup.streamingToolOutput = "out" ∧
    (handleEvent stDup jDup).streamingToolOutput = "" :=
  ⟨rfl, rfl, rfl⟩

/-- Claim C4 (amended): folding a `tool_use` event whose parsed payload
carries an id already present in the invocation list leaves the whole
state unchanged except that the live-output buffer is cleared — in
particular the invocation list gains no duplicate and no entry is
overwritten. -/
theorem dup_tool_use_keeps_list (st : SessionState) (j td : Json)
    (hty : j.getField ("type") = some (.str "tool_use"))
    (hp : Json.parse (jsCoerceUndef (j.getField ("data"))) = some td)
    (hdup : (st.toolUses.any fun u => jsEq u.id (td.getField ("id"))) = true) :
    handleEvent st j = { st with streamingToolOutput := "" } := by
  unfold handleEvent toolUseCase
  rw [hty]
  simp [hp, hdup]

/-- Witness for C4 (amended) at the concrete duplicate event. -/
theorem dup_tool_use_keeps_list_witness :
    handleEvent stDup jDup = { stDup with streamingToolOutput := "" } :=
  dup_tool_use_keeps_list stDup jDup tdDup rfl rfl rfl

/-- `s.slice(-n)` yields exactly `n` characters when the string is at
least that long. -/
lemma jsSliceLast_exact (s : String) (n : Nat) (h : n ≤ s.length) :
    (jsSliceLast s n).length = n := by
  have hd : s.length = s.data.length := rfl
  show (s.data.drop (s.data.length - n)).length = n
  rw [List.length_drop]
  omega

/-- Claim C5: after folding any sequence of events the live tool-output
buffer never exceeds 5000 characters, and a non-heartbeat `tool_output`
payload that pushes it past 5000 leaves exactly the most recent 5000
characters of the appended buffer. -/
theorem tool_output_buffer_bound :
    (∀ (st : SessionState) (lines : List String),
        st.streamingToolOutput.length ≤ 5000 →
        (foldLines st lines).streamingToolOutput.length ≤ 5000) ∧
    (∀ (st : SessionState) (j : Json),
        j.getField ("type") = some (.str "tool_output") →
        (∀ p, Json.parse (jsCoerceUndef (j.getField ("data"))) = some p →
          jsTruthy (p.getField ("_progress")) = false) →
        (st.streamingToolOutput ++
            (if st.streamingToolOutput ≠ "" then "\n" else "") ++
            jsCoerceUndef (j.getField ("data"))).length > 5000 →
        (handleEvent st j).streamingToolOutput =
          jsSliceLast (st.streamingToolOutput ++
            (if st.streamingToolOutput ≠ "" then "\n" else "") ++
            jsCoerceUndef (j.getField ("data"))) 5000 ∧
        (handleEvent st j).streamingToolOutput.length = 5000) := by
  constructor
  · intro st lines h
    exact foldLines_output_le lines st h
  · intro st j hty hnp hlen
    have hout : handleEvent st j = toolOutputCase st (j.getField ("data")) := by
      unfold handleEvent
      rw [hty]
      simp
    rw [hout]
    unfold toolOutputCase
    have happ : (appendToolOutput st (jsCoerceUndef (j.getField ("data")))).streamingToolOutput =
        jsSliceLast (st.streamingToolOutput ++
          (if st.streamingToolOutput ≠ "" then "\n" else "") ++
          jsCoerceUndef (j.getField ("data"))) 5000 := by
      unfold appendToolOutput capOutput
      simp only [if_pos hlen]
    cases hparse : Json.parse (jsCoerceUndef (j.getField ("data"))) with
    | none =>
      refine ⟨happ, ?_⟩
      rw [happ]
      exact jsSliceLast_exact _ _ (by omega)
    | some p =>
      dsimp only
      rw [hnp p hparse]
      simp only [Bool.false_eq_true, if_false]
      refine ⟨happ, ?_⟩
      rw [happ]
      exact jsSliceLast_exact _ _ (by omega)

/-- A 4999-character live-output buffer. -/
def aLots : String := String.mk (List.replicate 4999 'a')

/-- A state holding that buffer. -/
def stBig : SessionState := { initSt with streamingToolOutput := aLots }

/-- A non-heartbeat `tool_output` event with a two-character payload. -/
def jOut : Json := .obj [("type", .str "tool_output"), ("data", .str "bb")]

/-- Witness for C5: the bound holds on the concrete state, and the
concrete overflow (4999 + newline + 2 characters) is trimmed to exactly
5000. -/
theorem tool_output_buffer_bound_witness :
    (foldLines stBig []).streamingToolOutput.length ≤ 5000 ∧
    (handleEvent stBig jOut).streamingToolOutput.length = 5000 := by
  have hlen4999 : stBig.streamingToolOutput.length = 4999 := by
    show (String.mk (List.replicate 4999 'a')).length = 4999
    rw [String.length_mk, List.length_replicate]
  have hb : stBig.streamingToolOutput.length ≤ 5000 := by omega
  have hne : stBig.streamingToolOutput ≠ "" := by
    intro hcontra
    rw [hcontra] at hlen4999
    exact absurd hlen4999 (by decide)
  have hdata : jsCoerceUndef (jOut.getField ("data")) = "bb" := rfl
  have hlen : (stBig.streamingToolOutput ++
      (if stBig.streamingToolOutput ≠ "" then "\n" else "") ++
      jsCoerceUndef (jOut.getField ("data"))).length > 5000 := by
    rw [if_pos hne, hdata, String.length_append, String.length_append, hlen4999]
    decide
  exact ⟨tool_output_buffer_bound.1 stBig [] hb,
    (tool_output_buffer_bound.2 stBig jOut rfl (fun p hp => nomatch hp) hlen).2⟩

/-- A `text` frame whose payload is a single space, newline-terminated. -/
def spaceChunk : String := "data: \x7b\"type\":\"text\",\"data\":\" \"\x7d\n"

/-- A `text` frame carrying `partial`, newline-terminated. -/
def partialChunk : String := "data: \x7b\"type\":\"text\",\"data\":\"partial\"\x7d\n"

/-- Claim C6 counterexample: cancelling after folding the text `" "`
leaves the text buffer non-empty, yet no assistant message at all is
committed (the source tests `accumulated.trim()`), contradicting the
claim that the partial text plus the stopped-early annotation is
committed whenever the buffer is non-empty. -/
theorem cancel_blank_partial_discarded_cex :
    (foldChunks (startTurn initSt ("hi")) [spaceChunk]).accumulated = " " ∧
    (sendMessage initSt ("hi") (.stream [spaceChunk] .abort)).messages =
      [⟨"user", "hi", none⟩] :=
  ⟨rfl, by decide⟩

/-- Claim C6 (amended): if cancellation arrives while the folded text
buffer is non-blank (non-empty after trimming), the controller commits
exactly one assistant message holding the trimmed partial text followed
by the stopped-early annotation, the streaming flag is cleared, and a
subsequent send on the same session is not rejected. -/
theorem cancel_commits_stopped_early (st : SessionState) (c : String) (chunks : List String)
    (h : st.isStreaming = false)
    (htr : jsTrim (foldChunks (startTurn st c) chunks).accumulated ≠ "") :
    (sendMessage st c (.stream chunks .abort)).messages =
      st.messages ++ [⟨"user", c, none⟩,
        ⟨"assistant", jsTrim (foldChunks (startTurn st c) chunks).accumulated ++
          "\n\n*(generation stopped)*", none⟩] ∧
    (sendMessage st c (.stream chunks .abort)).isStreaming = false ∧
    ∀ (c' : String) (o' : TurnOutcome), ∃ rest,
      (sendMessage (sendMessage st c (.stream chunks .abort)) c' o').messages =
        (sendMessage st c (.stream chunks .abort)).messages ++ ⟨"user", c', none⟩ :: rest := by
  have hmid : (foldChunks (startTurn st c) chunks).messages =
      st.messages ++ [⟨"user", c, none⟩] := by
    unfold foldChunks
    rw [foldChunks_messages]
    rfl
  have hpost : (sendMessage st c (.stream chunks .abort)).isStreaming = false := by
    simp [sendMessage, h, finallyReset]
  refine ⟨?_, hpost, fun c' o' => send_appends_user _ c' o' hpost⟩
  simp [sendMessage, h, finallyReset, commitAbort, htr, hmid]

/-- Witness for C6 (amended): cancel after `partial` commits the
annotated partial text. -/
theorem cancel_commits_stopped_early_witness :
    (sendMessage initSt ("hi") (.stream [partialChunk] .abort)).messages =
      [⟨"user", "hi", none⟩,
       ⟨"assistant", "partial\n\n*(generation stopped)*", none⟩] := by
  exact (cancel_commits_stopped_early initSt ("hi") [partialChunk] rfl (by decide)).1

/-- Claim C7 counterexample: on normal completion with the non-empty
text buffer `" "`, no assistant message is committed (the source tests
`accumulated.trim()`), contradicting the claim that a non-empty buffer
always yields an assistant message with that content. -/
theorem normal_blank_text_no_commit_cex :
    (foldChunks (startTurn initSt ("hi")) [spaceChunk]).accumulated = " " ∧
    (sendMessage initSt ("hi") (.stream [spaceChunk] .normal)).messages =
      [⟨"user", "hi", none⟩] :=
  ⟨rfl, by decide⟩

/-- Claim C7 (amended): on normal completion, if the accumulated text
buffer is non-blank the controller commits exactly one assistant
message whose content is the trimmed accumulated text together with the
stringified captured token usage; if the buffer trims to empty, no
assistant message is committed. -/
theorem normal_commit_trimmed_text (st : SessionState) (c : String) (chunks : List String)
    (h : st.isStreaming = false) :
    (jsTrim (foldChunks (startTurn st c) chunks).accumulated ≠ "" →
      (sendMessage st c (.stream chunks .normal)).messages =
        st.messages ++ [⟨"user", c, none⟩,
          ⟨"assistant", jsTrim (foldChunks (startTurn st c) chunks).accumulated,
            usageStringify (foldChunks (startTurn st c) chunks).tokenUsage⟩]) ∧
    (jsTrim (foldChunks (startTurn st c) chunks).accumulated = "" →
      (sendMessage st c (.stream chunks .normal)).messages =
        st.messages ++ [⟨"user", c, none⟩]) := by
  have hmid : (foldChunks (startTurn st c) chunks).messages =
      st.messages ++ [⟨"user", c, none⟩] := by
    unfold foldChunks
    rw [foldChunks_messages]
    rfl
  constructor <;> intro htr <;>
    simp [sendMessage, h, finallyReset, commitNormal, htr, hmid]

/-- The `Hello`/` world`/`done` stream of the specification scenario. -/
def helloChunks : List String :=
  ["data: \x7b\"type\":\"text\",\"data\":\"Hello\"\x7d\n",
   "data: \x7b\"type\":\"text\",\"data\":\" world\"\x7d\n",
   "data: \x7b\"type\":\"done\"\x7d\n"]

/-- Witness for C7 (amended): the scenario commits exactly
`Hello world`. -/
theorem normal_commit_trimmed_text_witness :
    (sendMessage initSt ("hi") (.stream helloChunks .normal)).messages =
      [⟨"user", "hi", none⟩, ⟨"assistant", "Hello world", none⟩] := by
  exact (normal_commit_trimmed_text initSt ("hi") helloChunks rfl).1 (by decide)

/-- A state with a pending permission request and accumulated text. -/
def stPerm : SessionState :=
  { initSt with
      isStreaming := true
      accumulated := "txt"
      pendingPermission := some (.obj [("permissionRequestId", .str "r1")]) }

/-- Claim C8 counterexample: right after the deny handler runs to
completion — including a failed network send — the pending request is
still exposed: the gate returns to idle only when the deferred
1-second clear fires, not immediately. -/
theorem perm_deny_not_immediately_idle_cex :
    (handlePermissionResponse stPerm .deny .failed).state.pendingPermission =
      some (.obj [("permissionRequestId", .str "r1")]) ∧
    (handlePermissionResponse stPerm .deny .failed).clearScheduled = true :=
  ⟨rfl, rfl⟩

/-- Claim C8 (amended): submitting a decision on a pending request
leaves the turn's text buffer unchanged and behaves identically whether
or not the network send succeeds; the deferred clear is scheduled
unconditionally, and running it returns the gate to idle with the text
buffer still unchanged. -/
theorem perm_decision_gate_behavior (st : SessionState) (d : PermDecision)
    (n₁ n₂ : NetResult) (pp : Json) (h : st.pendingPermission = some pp) :
    (handlePermissionResponse st d n₁).state.accumulated = st.accumulated ∧
    (handlePermissionResponse st d n₁).clearScheduled = true ∧
    handlePermissionResponse st d n₁ = handlePermissionResponse st d n₂ ∧
    (runPermissionClear (handlePermissionResponse st d n₁).state).pendingPermission = none ∧
    (runPermissionClear (handlePermissionResponse st d n₁).state).permissionResolved = none ∧
    (runPermissionClear (handlePermissionResponse st d n₁).state).accumulated = st.accumulated := by
  cases n₁ <;> cases n₂ <;>
    simp [handlePermissionResponse, runPermissionClear, h]

/-- Witness for C8 (amended) at the concrete deny with failed send. -/
theorem perm_decision_gate_behavior_witness :
    (handlePermissionResponse stPerm .deny .failed).state.accumulated = stPerm.accumulated ∧
    (runPermissionClear (handlePermissionResponse stPerm .deny .failed).state).pendingPermission =
      none := by
  have h := perm_decision_gate_behavior stPerm .deny .failed .ok
    (.obj [("permissionRequestId", .str "r1")]) rfl
  exact ⟨h.1, h.2.2.2.1⟩

/-- A `status` frame whose payload carries a `session_id` (the init
event); folding it schedules the bare 2-second status-clear timer. -/
def connChunk : String :=
  "data: \x7b\"type\":\"status\",\"data\":\"\x7b\\\"session_id\\\":\\\"abc\\\"\x7d\"\x7d\n"

/-- A `status` notification frame that sets the status text `building`. -/
def notifLine : String :=
  "data: \x7b\"type\":\"status\",\"data\":\"\x7b\\\"notification\\\":true,\\\"message\\\":\\\"building\\\"\x7d\"\x7d"

/-- Claim C9 is false of the code (code bug): the 2-second status-clear
timer scheduled during turn 1 survives turn 1's cleanup — the source
never calls `clearTimeout` and the callback `() => setStatusText(undefined)`
captures no turn identity — so firing it during turn 2 wipes turn 2's
own status text. -/
theorem stale_status_timer_clears_later_turn :
    (sendMessage initSt ("m1") (.stream [connChunk] .normal)).pendingStatusTimers = 1 ∧
    (processLine (startTurn (sendMessage initSt ("m1") (.stream [connChunk] .normal)) ("m2"))
        notifLine).statusText = some "building" ∧
    (fireStatusTimer
        (processLine (startTurn (sendMessage initSt ("m1") (.stream [connChunk] .normal)) ("m2"))
          notifLine)).statusText = none :=
  ⟨rfl, rfl, rfl⟩

/-- A `text` frame carrying `x`, newline-terminated. -/
def textXChunk : String := "data: \x7b\"type\":\"text\",\"data\":\"x\"\x7d\n"

/-- A `result` frame whose payload is JSON with a `usage` field holding
`null`. -/
def nullUsageChunk : String :=
  "data: \x7b\"type\":\"result\",\"data\":\"\x7b\\\"usage\\\":null\x7d\"\x7d\n"

/-- Claim C10 counterexample: a `result` event whose payload parses as
JSON with a `usage` field that is present but `null` is not captured —
the source tests truthiness (`if (resultData.usage)`) — so the
committed assistant message carries no token usage rather than the
stringified captured value. -/
theorem result_null_usage_not_captured_cex :
    Json.parse ("\x7b\"usage\":null\x7d") = some (.obj [("usage", .null)]) ∧
    (sendMessage initSt ("q") (.stream [textXChunk, nullUsageChunk] .normal)).messages =
      [⟨"user", "q", none⟩, ⟨"assistant", "x", none⟩] :=
  ⟨rfl, by decide⟩

/-- Claim C10 (amended): a `result` event whose payload parses as JSON
with a truthy `usage` field has that value captured (each later such
event overwrites the capture, so the last one wins) and clears the
status text; a `result` event with a falsy or unparseable payload
leaves the capture unchanged and still clears the status text; and the
assistant message committed on normal completion carries the
JSON-stringified captured usage. -/
theorem result_usage_capture :
    (∀ (st : SessionState) (j rd : Json),
        j.getField ("type") = some (.str "result") →
        Json.parse (jsCoerceUndef (j.getField ("data"))) = some rd →
        (jsTruthy (rd.getField ("usage")) = true →
          (handleEvent st j).tokenUsage = rd.getField ("usage")) ∧
        (jsTruthy (rd.getField ("usage")) = false →
          (handleEvent st j).tokenUsage = st.tokenUsage) ∧
        (handleEvent st j).statusText = none) ∧
    (∀ (st : SessionState) (j : Json),
        j.getField ("type") = some (.str "result") →
        Json.parse (jsCoerceUndef (j.getField ("data"))) = none →
        (handleEvent st j).statusText = none ∧
        (handleEvent st j).tokenUsage = st.tokenUsage) ∧
    (∀ st : SessionState, jsTrim st.accumulated ≠ "" →
        (commitNormal st).messages = st.messages ++
          [⟨"assistant", jsTrim st.accumulated, usageStringify st.tokenUsage⟩]) := by
  refine ⟨?_, ?_, ?_⟩
  · intro st j rd hty hp
    have h : handleEvent st j = resultCase st (j.getField ("data")) := by
      unfold handleEvent
      rw [hty]
      simp
    rw [h]
    unfold resultCase
    rw [hp]
    refine ⟨fun htr => ?_, fun hfa => ?_, rfl⟩
    · simp [htr]
    · simp [hfa]
  · intro st j hty hp
    have h : handleEvent st j = resultCase st (j.getField ("data")) := by
      unfold handleEvent
      rw [hty]
      simp
    rw [h]
    unfold resultCase
    rw [hp]
    exact ⟨rfl, rfl⟩
  · intro st htr
    simp [commitNormal, htr]

/-- A `result` event with a truthy `usage` object. -/
def jResUse : Json :=
  .obj [("type", .str "result"), ("data", .str ("\x7b\"usage\":\x7b\"in\":5\x7d\x7d"))]

/-- Witness for C10 (amended): the truthy usage object is captured and
the status text is cleared. -/
theorem result_usage_capture_witness :
    (handleEvent { initSt with statusText := some "s" } jResUse).tokenUsage =
      some (.obj [("in", .num 5)]) ∧
    (handleEvent { initSt with statusText := some "s" } jResUse).statusText = none := by
  have h := result_usage_capture.1 { initSt with statusText := some "s" } jResUse
    (.obj [("usage", .obj [("in", .num 5)])]) rfl rfl
  exact ⟨h.1 rfl, h.2.2⟩

end CodePilot
